import Mathlib

/-!
Verification of the `EarlyAllocator` bump allocator
(`modules/bump_allocator/src/lib.rs`).

The allocator manages one contiguous `usize` address range `[start, end)`:
bytes are allocated upward from `b_pos`, pages downward from `p_pos`.
We model `usize` as `Nat` with the 64-bit bound made explicit wherever the
source uses checked or wrapping arithmetic (the repository targets 64-bit
platforms).  The source resolves CAS contention by retrying; in the
sequential semantics modelled here every compare-exchange succeeds on its
first attempt, so each operation is a plain state transformer.  A `panic!`
(the `expect`/`assert!` in `init`, and the `NonNull::new(..).unwrap()` on a
null result in `alloc`) aborts execution; panicking outcomes are modelled
as `none`.
-/

/-- Bit width of `usize` on the supported targets. -/
def usizeBits : Nat := 64

/-- `usize::MAX`. -/
def usizeMax : Nat := 2 ^ usizeBits - 1

/-- Rust `usize::checked_add`. -/
def checked_add (a b : Nat) : Option Nat :=
  if a + b ≤ usizeMax then some (a + b) else none

/-- Rust `usize::checked_mul`. -/
def checked_mul (a b : Nat) : Option Nat :=
  if a * b ≤ usizeMax then some (a * b) else none

/-- Rust `usize::checked_sub`. -/
def checked_sub (a b : Nat) : Option Nat :=
  if b ≤ a then some (a - b) else none

/-- Rust `usize::checked_shl`: `none` exactly when the shift amount is at
least the bit width; otherwise the value is shifted within the width. -/
def checked_shl (x r : Nat) : Option Nat :=
  if r < usizeBits then some ((x <<< r) % (usizeMax + 1)) else none

/-- Rust `expr as u32`: truncation to 32 bits. -/
def as_u32 (x : Nat) : Nat := x % 2 ^ 32

/-- Rust `usize::is_power_of_two` (exactly one bit set). -/
def is_power_of_two (n : Nat) : Bool := n != 0 && (n &&& (n - 1) == 0)

/-- `fn align_up(addr, align) = (addr + align - 1) & !(align - 1)`;
`!` is 64-bit complement, i.e. xor with `usize::MAX`.  The source addition
is unchecked, so it wraps modulo `2^64` in release builds; since only bits
below 64 survive the mask, `Nat.land` with the 64-bit mask reproduces the
wrapping result exactly. -/
def align_up (addr align : Nat) : Nat :=
  (addr + align - 1) &&& (usizeMax ^^^ (align - 1))

/-- `fn align_down(addr, align) = addr & !(align - 1)`. -/
def align_down (addr align : Nat) : Nat :=
  addr &&& (usizeMax ^^^ (align - 1))

/-- The `AllocError` variants used by this allocator. -/
inductive AllocError where
  | NoMemory
  | InvalidParam
deriving DecidableEq, Repr

/-- `AllocResult<T> = Result<T, AllocError>`. -/
abbrev AllocResult (α : Type) := Except AllocError α

/-- The five fields of `EarlyAllocator<PAGE>` (the atomics hold `usize`
values; the const generic `PAGE` is passed to the page-level operations
explicitly). -/
structure EarlyAllocator where
  start : Nat
  «end» : Nat
  b_pos : Nat
  p_pos : Nat
  count : Nat
deriving DecidableEq, Repr

namespace EarlyAllocator

/-- `EarlyAllocator::new`: all fields zero. -/
def new : EarlyAllocator := ⟨0, 0, 0, 0, 0⟩

/-- `fn is_initialized = start != 0 && end != 0`. -/
def is_initialized (s : EarlyAllocator) : Bool :=
  s.start != 0 && s.«end» != 0

/-- `BaseAllocator::init`: `end = start.checked_add(size).expect(..)`,
`assert!(start < end)`, then all five fields are stored.  `none` models the
panic of `expect`/`assert!`. -/
def init (start size : Nat) : Option EarlyAllocator :=
  match checked_add start size with
  | none => none
  | some e => if start < e then some ⟨start, e, start, e, 0⟩ else none

/-- `ByteAllocator::alloc` in the sequential semantics (the CAS commits on
the first attempt).  `none` models the panic of
`NonNull::new(aligned_b_pos as *mut u8).unwrap()` when the aligned address
is null. -/
def alloc (s : EarlyAllocator) (size align : Nat) :
    Option (AllocResult (Nat × EarlyAllocator)) :=
  if is_initialized s = false then some (.error .InvalidParam)
  else if size = 0 then some (.error .InvalidParam)
  else if is_power_of_two align = false then some (.error .InvalidParam)
  else
    let aligned_b_pos := align_up s.b_pos align
    match checked_add aligned_b_pos size with
    | some next_b_pos =>
      if next_b_pos ≤ s.p_pos then
        if aligned_b_pos = 0 then none
        else
          some (.ok (aligned_b_pos,
            { s with b_pos := next_b_pos,
                     count := (s.count + 1) % (usizeMax + 1) }))
      else some (.error .NoMemory)
    | none => some (.error .NoMemory)

/-- `ByteAllocator::dealloc`: `fetch_sub(1)` (wrapping) followed by a store
of zero when the previous value was zero.  The pointer and layout arguments
are unused by the source. -/
def dealloc (s : EarlyAllocator) (_pos _size _align : Nat) : EarlyAllocator :=
  if is_initialized s = false then s
  else
    let new_count := (s.count + usizeMax) % (usizeMax + 1)
    if s.count = 0 then { s with count := 0 }
    else { s with count := new_count }

/-- `ByteAllocator::total_bytes = end.saturating_sub(start)` (0 before
initialization). -/
def total_bytes (s : EarlyAllocator) : Nat :=
  if is_initialized s = false then 0 else s.«end» - s.start

/-- `ByteAllocator::used_bytes = b_pos.saturating_sub(start)`. -/
def used_bytes (s : EarlyAllocator) : Nat :=
  if is_initialized s = false then 0 else s.b_pos - s.start

/-- `ByteAllocator::available_bytes = p_pos.saturating_sub(b_pos)`. -/
def available_bytes (s : EarlyAllocator) : Nat :=
  if is_initialized s = false then 0 else s.p_pos - s.b_pos

/-- `PageAllocator::alloc_pages` in the sequential semantics (the CAS
commits on the first attempt). -/
def alloc_pages (PAGE : Nat) (s : EarlyAllocator) (num_pages align_pow2 : Nat) :
    AllocResult (Nat × EarlyAllocator) :=
  if is_initialized s = false then .error .InvalidParam
  else if num_pages = 0 then .error .InvalidParam
  else match checked_shl 1 (as_u32 align_pow2) with
  | none => .error .InvalidParam
  | some align0 =>
    let align := max align0 PAGE
    if is_power_of_two align = false then .error .InvalidParam
    else match checked_mul num_pages PAGE with
    | none => .error .NoMemory
    | some size =>
      match checked_sub s.p_pos size with
      | none => .error .NoMemory
      | some start_addr =>
        let aligned_start := align_down start_addr align
        if s.b_pos ≤ aligned_start ∧ s.start ≤ aligned_start then
          .ok (aligned_start, { s with p_pos := aligned_start })
        else .error .NoMemory

/-- `PageAllocator::dealloc_pages`: a no-op. -/
def dealloc_pages (s : EarlyAllocator) (_pos _num_pages : Nat) : EarlyAllocator := s

/-- `PageAllocator::total_pages = total_bytes / PAGE_SIZE`. -/
def total_pages (PAGE : Nat) (s : EarlyAllocator) : Nat :=
  if is_initialized s = false then 0 else total_bytes s / PAGE

/-- `PageAllocator::used_pages = end.saturating_sub(p_pos) / PAGE_SIZE`. -/
def used_pages (PAGE : Nat) (s : EarlyAllocator) : Nat :=
  if is_initialized s = false then 0 else (s.«end» - s.p_pos) / PAGE

/-- `PageAllocator::available_pages = align_down(available_bytes, PAGE_SIZE) / PAGE_SIZE`. -/
def available_pages (PAGE : Nat) (s : EarlyAllocator) : Nat :=
  if is_initialized s = false then 0
  else align_down (available_bytes s) PAGE / PAGE

end EarlyAllocator

/-- One post-`init` call against the allocator, with its `usize` arguments. -/
inductive Op where
  | opAlloc (size align : Nat)
  | opDealloc (pos size align : Nat)
  | opAllocPages (num_pages align_pow2 : Nat)
  | opDeallocPages (pos num_pages : Nat)

/-- Effect of one call on the allocator state.  Error results leave the
state unchanged; `none` is a panicking call (which aborts execution). -/
def step (PAGE : Nat) (s : EarlyAllocator) : Op → Option EarlyAllocator
  | .opAlloc size align =>
    match s.alloc size align with
    | none => none
    | some (.ok (_, s')) => some s'
    | some (.error _) => some s
  | .opDealloc pos size align => some (s.dealloc pos size align)
  | .opAllocPages num_pages align_pow2 =>
    match EarlyAllocator.alloc_pages PAGE s num_pages align_pow2 with
    | .ok (_, s') => some s'
    | .error _ => some s
  | .opDeallocPages pos num_pages => some (s.dealloc_pages pos num_pages)

/-- Run a sequence of calls; `none` as soon as one panics. -/
def run (PAGE : Nat) (s : EarlyAllocator) : List Op → Option EarlyAllocator
  | [] => some s
  | op :: rest =>
    match step PAGE s op with
    | none => none
    | some s' => run PAGE s' rest

/-- States reachable from a successful `init` by some sequence of calls. -/
def Reachable (PAGE : Nat) (s : EarlyAllocator) : Prop :=
  ∃ start size s0 ops,
    EarlyAllocator.init start size = some s0 ∧ run PAGE s0 ops = some s

/-- The allocator invariant: the cursor chain of the specification together
with the inherent `usize` bounds on the stored fields. -/
def AllocInv (s : EarlyAllocator) : Prop :=
  s.start ≤ s.b_pos ∧ s.b_pos ≤ s.p_pos ∧ s.p_pos ≤ s.«end» ∧
  s.«end» ≤ usizeMax ∧ s.count ≤ usizeMax

instance (s : EarlyAllocator) : Decidable (AllocInv s) := by
  unfold AllocInv; infer_instance

instance {ε α : Type} [DecidableEq ε] [DecidableEq α] : DecidableEq (Except ε α)
  | .error a, .error b =>
    if h : a = b then .isTrue (by rw [h])
    else .isFalse (fun hc => h (Except.error.inj hc))
  | .error _, .ok _ => .isFalse (fun hc => Except.noConfusion hc)
  | .ok _, .error _ => .isFalse (fun hc => Except.noConfusion hc)
  | .ok a, .ok b =>
    if h : a = b then .isTrue (by rw [h])
    else .isFalse (fun hc => h (Except.ok.inj hc))

/-! ### Arithmetic facts about the 64-bit masks used by `align_up` / `align_down` -/

theorem usizeMax_add_one : usizeMax + 1 = 2 ^ 64 := by
  norm_num [usizeMax, usizeBits]

theorem usizeMax_eq : usizeMax = 2 ^ 64 - 1 := by
  norm_num [usizeMax, usizeBits]

theorem two_pow_64_eq : (2 : Nat) ^ 64 = 18446744073709551616 := by norm_num

/-- For a power-of-two alignment that fits the word, the complement mask
`!(align - 1)` is `2^64 - align`. -/
theorem mask_eq_of_le {k : Nat} (hk : k ≤ 64) :
    usizeMax ^^^ (2 ^ k - 1) = 2 ^ 64 - 2 ^ k := by
  have hs : 2 ^ 64 - 2 ^ k = (2 ^ (64 - k) - 1) <<< k := by
    rw [Nat.shiftLeft_eq, Nat.sub_mul, Nat.one_mul, ← Nat.pow_add,
      Nat.sub_add_cancel hk]
  rw [usizeMax_eq, hs]
  apply Nat.eq_of_testBit_eq
  intro i
  rw [Nat.testBit_xor, Nat.testBit_two_pow_sub_one, Nat.testBit_two_pow_sub_one,
    Nat.testBit_shiftLeft, Nat.testBit_two_pow_sub_one]
  by_cases h1 : i < k <;> by_cases h2 : i < 64 <;>
    simp [h1, h2, Nat.le_of_not_lt, Nat.not_le_of_lt] <;> omega

/-- For an oversized power-of-two alignment the mask has no bits below 64. -/
theorem mask_mod_of_ge {k : Nat} (hk : 64 ≤ k) :
    (usizeMax ^^^ (2 ^ k - 1)) % 2 ^ 64 = 0 := by
  rw [← Nat.and_pow_two_sub_one_eq_mod]
  apply Nat.eq_of_testBit_eq
  intro i
  rw [Nat.testBit_and, Nat.testBit_xor, usizeMax_eq, Nat.testBit_two_pow_sub_one,
    Nat.testBit_two_pow_sub_one, Nat.zero_testBit]
  by_cases h : i < 64
  · have hik : i < k := Nat.lt_of_lt_of_le h hk
    simp [h, hik]
  · simp [h]

/-- Masking with `m` keeps a value a multiple of any power of two dividing `m`. -/
theorem land_mod_eq_zero {x m n : Nat} (hm : m % 2 ^ n = 0) :
    (x &&& m) % 2 ^ n = 0 := by
  rw [← Nat.and_pow_two_sub_one_eq_mod, Nat.and_assoc,
    Nat.and_pow_two_sub_one_eq_mod, hm, Nat.and_zero]

/-- Only the low `n` bits of the left operand matter when the right operand
is below `2^n`. -/
theorem land_mod_left {y m n : Nat} (hm : m < 2 ^ n) :
    y &&& m = (y % 2 ^ n) &&& m := by
  apply Nat.eq_of_testBit_eq
  intro i
  rw [Nat.testBit_and, Nat.testBit_and, Nat.testBit_mod_two_pow]
  by_cases h : i < n
  · simp [h]
  · have hbit : m.testBit i = false :=
      Nat.testBit_lt_two_pow
        (Nat.lt_of_lt_of_le hm (Nat.pow_le_pow_right (by norm_num) (Nat.le_of_not_lt h)))
    simp [h, hbit]

/-- Clearing the low `k` bits of an in-range value rounds it down to a
multiple of `2^k`. -/
theorem land_mask_eq {y k : Nat} (hy : y ≤ usizeMax) (hk : k ≤ 64) :
    y &&& (2 ^ 64 - 2 ^ k) = y - y % 2 ^ k := by
  have h2 : y - y % 2 ^ k = (y >>> k) <<< k := by
    rw [Nat.shiftRight_eq_div_pow, Nat.shiftLeft_eq, Nat.mul_comm]
    have := Nat.div_add_mod y (2 ^ k)
    omega
  have hs : 2 ^ 64 - 2 ^ k = (2 ^ (64 - k) - 1) <<< k := by
    rw [Nat.shiftLeft_eq, Nat.sub_mul, Nat.one_mul, ← Nat.pow_add,
      Nat.sub_add_cancel hk]
  have hylt : y < 2 ^ 64 := by
    have := Nat.two_pow_pos 64
    rw [usizeMax_eq] at hy
    omega
  rw [h2, hs]
  apply Nat.eq_of_testBit_eq
  intro i
  rw [Nat.testBit_and, Nat.testBit_shiftLeft, Nat.testBit_shiftLeft,
    Nat.testBit_shiftRight, Nat.testBit_two_pow_sub_one]
  by_cases h1 : k ≤ i
  · have hki : k + (i - k) = i := by omega
    rw [hki]
    by_cases h2 : i < 64
    · have : i - k < 64 - k := by omega
      simp [h1, this]
    · have hbit : y.testBit i = false :=
        Nat.testBit_lt_two_pow
          (Nat.lt_of_lt_of_le hylt (Nat.pow_le_pow_right (by norm_num) (Nat.le_of_not_lt h2)))
      simp [hbit]
  · simp [h1]

/-- `usize::is_power_of_two` agrees with the mathematical notion. -/
theorem is_power_of_two_iff {n : Nat} :
    is_power_of_two n = true ↔ ∃ k, n = 2 ^ k := by
  constructor
  · intro h
    unfold is_power_of_two at h
    rw [Bool.and_eq_true, bne_iff_ne, beq_iff_eq] at h
    obtain ⟨hne, hand⟩ := h
    refine ⟨n.log2, ?_⟩
    by_contra hne2
    have h1 : 2 ^ n.log2 ≤ n := Nat.log2_self_le hne
    have h2 : n < 2 ^ (n.log2 + 1) := Nat.lt_log2_self
    have h3 : 2 ^ n.log2 < n := Nat.lt_of_le_of_ne h1 (fun he => hne2 he.symm)
    have hpow : 0 < 2 ^ n.log2 := Nat.two_pow_pos _
    have hb1 : n.testBit n.log2 = true := by
      rw [Nat.testBit_to_div_mod]
      have hd : n / 2 ^ n.log2 = 1 := by
        apply Nat.div_eq_of_lt_le (by omega)
        rw [Nat.succ_mul, Nat.one_mul]
        rw [Nat.pow_succ] at h2
        omega
      simp [hd]
    have hb2 : (n - 1).testBit n.log2 = true := by
      rw [Nat.testBit_to_div_mod]
      have hd : (n - 1) / 2 ^ n.log2 = 1 := by
        apply Nat.div_eq_of_lt_le (by omega)
        rw [Nat.succ_mul, Nat.one_mul]
        rw [Nat.pow_succ] at h2
        omega
      simp [hd]
    have hb : (n &&& (n - 1)).testBit n.log2 = true := by
      rw [Nat.testBit_and, hb1, hb2]; rfl
    rw [hand] at hb
    simp at hb
  · rintro ⟨k, rfl⟩
    unfold is_power_of_two
    rw [Bool.and_eq_true, bne_iff_ne, beq_iff_eq]
    exact ⟨Nat.pos_iff_ne_zero.mp (Nat.two_pow_pos k),
      by rw [Nat.and_pow_two_sub_one_eq_mod, Nat.mod_self]⟩

/-- The larger of two powers of two is a power of two. -/
theorem is_power_of_two_max {a b : Nat} (ha : is_power_of_two a = true)
    (hb : is_power_of_two b = true) : is_power_of_two (max a b) = true := by
  rcases Nat.le_total a b with h | h
  · rwa [Nat.max_eq_right h]
  · rwa [Nat.max_eq_left h]

theorem is_power_of_two_pos {n : Nat} (h : is_power_of_two n = true) : 0 < n := by
  obtain ⟨k, rfl⟩ := is_power_of_two_iff.mp h
  exact Nat.two_pow_pos k

/-! ### Characterizations of `align_up` and `align_down` -/

theorem align_down_pow2 {x k : Nat} (hx : x ≤ usizeMax) (hk : k ≤ 64) :
    align_down x (2 ^ k) = x - x % 2 ^ k := by
  unfold align_down
  rw [mask_eq_of_le hk, land_mask_eq hx hk]

theorem align_down_le (x align : Nat) : align_down x align ≤ x :=
  Nat.and_le_left

theorem align_up_pow2 {addr k : Nat} (hk : k ≤ 64)
    (h : addr + 2 ^ k - 1 ≤ usizeMax) :
    align_up addr (2 ^ k) =
      (addr + 2 ^ k - 1) - (addr + 2 ^ k - 1) % 2 ^ k := by
  unfold align_up
  rw [mask_eq_of_le hk, land_mask_eq h hk]

/-- When the unchecked addition inside `align_up` wraps, the masked result
is zero (and the allocator would then panic on `NonNull::new(..).unwrap()`). -/
theorem align_up_pow2_wrap {addr k : Nat} (hk : k ≤ 64) (haddr : addr ≤ usizeMax)
    (h : usizeMax < addr + 2 ^ k - 1) : align_up addr (2 ^ k) = 0 := by
  unfold align_up
  rw [mask_eq_of_le hk]
  have hkp : 0 < 2 ^ k := Nat.two_pow_pos k
  have h64 : 0 < 2 ^ 64 := Nat.two_pow_pos 64
  have hk64 : (2 : Nat) ^ k ≤ 2 ^ 64 := Nat.pow_le_pow_right (by norm_num) hk
  have hm : 2 ^ 64 - 2 ^ k < 2 ^ 64 := by omega
  rw [land_mod_left hm]
  rw [usizeMax_eq] at haddr h
  have hge : 2 ^ 64 ≤ addr + 2 ^ k - 1 := by omega
  have hmod : (addr + 2 ^ k - 1) % 2 ^ 64 = addr + 2 ^ k - 1 - 2 ^ 64 := by
    rw [Nat.mod_eq_sub_mod hge, Nat.mod_eq_of_lt (by omega)]
  rw [hmod]
  have hylt : addr + 2 ^ k - 1 - 2 ^ 64 < 2 ^ k := by omega
  rw [land_mask_eq (by rw [usizeMax_eq]; omega) hk, Nat.mod_eq_of_lt hylt,
    Nat.sub_self]

/-! ### Anatomy of a successful `alloc` / `alloc_pages` call -/

/-- Everything a successful `alloc` guarantees: the guards passed, the
returned address is the aligned byte cursor, it is a multiple of the
alignment, and the state advanced `b_pos` to `address + size`. -/
theorem alloc_ok_spec {s s' : EarlyAllocator} {size align a : Nat}
    (hInv : AllocInv s)
    (h : s.alloc size align = some (.ok (a, s'))) :
    s.is_initialized = true ∧ size ≠ 0 ∧ is_power_of_two align = true ∧
    s.b_pos ≤ a ∧ a % align = 0 ∧ a + size ≤ s.p_pos ∧
    s' = { s with b_pos := a + size,
                  count := (s.count + 1) % (usizeMax + 1) } := by
  obtain ⟨hsb, hbp, hpe, hemax, hcmax⟩ := hInv
  cases hinit : s.is_initialized with
  | false => simp [EarlyAllocator.alloc, hinit] at h
  | true =>
  by_cases hsize : size = 0
  · simp [EarlyAllocator.alloc, hinit, hsize] at h
  cases hpow : is_power_of_two align with
  | false => simp [EarlyAllocator.alloc, hinit, hsize, hpow] at h
  | true =>
  by_cases hadd : align_up s.b_pos align + size ≤ usizeMax
  · by_cases hle : align_up s.b_pos align + size ≤ s.p_pos
    · by_cases hz : align_up s.b_pos align = 0
      · have hadd' : size ≤ usizeMax := by omega
        have hle' : size ≤ s.p_pos := by omega
        simp [EarlyAllocator.alloc, hinit, hsize, hpow, checked_add, hz, hadd', hle'] at h
      · simp [EarlyAllocator.alloc, hinit, hsize, hpow, checked_add, hadd, hle, hz] at h
        obtain ⟨ha, hs'⟩ := h
        subst ha
        obtain ⟨k, hk⟩ := is_power_of_two_iff.mp hpow
        subst hk
        rcases le_or_lt k 64 with hk64 | hk64
        · -- in-range alignment
          by_cases hw : s.b_pos + 2 ^ k - 1 ≤ usizeMax
          · have heq := align_up_pow2 hk64 hw
            have hkp : 0 < 2 ^ k := Nat.two_pow_pos k
            have hmlt : (s.b_pos + 2 ^ k - 1) % 2 ^ k < 2 ^ k :=
              Nat.mod_lt _ hkp
            have hdm := Nat.div_add_mod (s.b_pos + 2 ^ k - 1) (2 ^ k)
            refine ⟨rfl, hsize, rfl, ?_, ?_, hle, hs'.symm⟩
            · omega
            · have hmul : align_up s.b_pos (2 ^ k) =
                  2 ^ k * ((s.b_pos + 2 ^ k - 1) / 2 ^ k) := by omega
              rw [hmul, Nat.mul_mod_right]
          · exact absurd (align_up_pow2_wrap hk64 (by omega) (by omega)) hz
        · -- oversized alignment: the mask clears all bits below 64, so a
          -- nonzero result would exceed `usize::MAX` and fail `checked_add`
          have hmod : align_up s.b_pos (2 ^ k) % 2 ^ 64 = 0 := by
            unfold align_up
            exact land_mod_eq_zero (mask_mod_of_ge (Nat.le_of_lt hk64))
          rw [two_pow_64_eq] at hmod
          rw [usizeMax_eq, two_pow_64_eq] at hadd
          omega
    · simp [EarlyAllocator.alloc, hinit, hsize, hpow, checked_add, hadd, hle] at h
  · simp [EarlyAllocator.alloc, hinit, hsize, hpow, checked_add, hadd] at h

/-- Everything a successful `alloc_pages` guarantees: the guards passed
(with the `as u32` truncation of `align_pow2`), the returned address is a
multiple of the effective alignment `max(2^(align_pow2 % 2^32), PAGE)`,
it lies between both cursors, and only `p_pos` moved. -/
theorem alloc_pages_ok_spec {PAGE np ap a : Nat} {s s' : EarlyAllocator}
    (hInv : AllocInv s)
    (h : EarlyAllocator.alloc_pages PAGE s np ap = .ok (a, s')) :
    s.is_initialized = true ∧ np ≠ 0 ∧ ap % 2 ^ 32 < 64 ∧
    is_power_of_two (max (2 ^ (ap % 2 ^ 32)) PAGE) = true ∧
    a % max (2 ^ (ap % 2 ^ 32)) PAGE = 0 ∧
    s.b_pos ≤ a ∧ s.start ≤ a ∧ np * PAGE ≤ s.p_pos ∧ a + np * PAGE ≤ s.p_pos ∧
    s' = { s with p_pos := a } := by
  obtain ⟨hsb, hbp, hpe, hemax, hcmax⟩ := hInv
  cases hinit : s.is_initialized with
  | false => simp [-Nat.reducePow, EarlyAllocator.alloc_pages, hinit] at h
  | true =>
  by_cases hnp : np = 0
  · simp [-Nat.reducePow, EarlyAllocator.alloc_pages, hinit, hnp] at h
  by_cases hr : as_u32 ap < usizeBits
  case neg => simp [-Nat.reducePow, EarlyAllocator.alloc_pages, hinit, hnp, checked_shl, hr] at h
  case pos =>
  have hr64 : ap % 2 ^ 32 < 64 := by
    have : as_u32 ap < 64 := by simpa [usizeBits] using hr
    simpa [as_u32] using this
  have halign0 : (1 <<< as_u32 ap) % (usizeMax + 1) = 2 ^ (ap % 2 ^ 32) := by
    rw [Nat.shiftLeft_eq, Nat.one_mul, usizeMax_add_one, as_u32,
      Nat.mod_eq_of_lt (Nat.pow_lt_pow_right (by norm_num) hr64)]
  cases hpow : is_power_of_two (max (2 ^ (ap % 2 ^ 32)) PAGE) with
  | false =>
    simp [-Nat.reducePow, EarlyAllocator.alloc_pages, hinit, hnp, checked_shl, hr, halign0, hpow] at h
  | true =>
  by_cases hmul : np * PAGE ≤ usizeMax
  case neg =>
    simp [-Nat.reducePow, EarlyAllocator.alloc_pages, hinit, hnp, checked_shl, hr, halign0, hpow,
      checked_mul, hmul] at h
  case pos =>
  by_cases hsub : np * PAGE ≤ s.p_pos
  case neg =>
    simp [-Nat.reducePow, EarlyAllocator.alloc_pages, hinit, hnp, checked_shl, hr, halign0, hpow,
      checked_mul, hmul, checked_sub, hsub] at h
  case pos =>
  by_cases hcond : s.b_pos ≤ align_down (s.p_pos - np * PAGE) (max (2 ^ (ap % 2 ^ 32)) PAGE) ∧
      s.start ≤ align_down (s.p_pos - np * PAGE) (max (2 ^ (ap % 2 ^ 32)) PAGE)
  case neg =>
    simp [-Nat.reducePow, EarlyAllocator.alloc_pages, hinit, hnp, checked_shl, hr, halign0, hpow,
      checked_mul, hmul, checked_sub, hsub, hcond] at h
  case pos =>
  simp [-Nat.reducePow, EarlyAllocator.alloc_pages, hinit, hnp, checked_shl, hr, halign0, hpow,
    checked_mul, hmul, checked_sub, hsub, hcond] at h
  obtain ⟨ha, hs'⟩ := h
  obtain ⟨hca, hcb⟩ := hcond
  rw [ha] at hca hcb hs'
  have hdle : a ≤ s.p_pos - np * PAGE := by
    rw [← ha]; exact align_down_le _ _
  refine ⟨rfl, hnp, hr64, rfl, ?_, hca, hcb, hsub, by omega, hs'.symm⟩
  -- the alignment is a power of two that must fit the word, else the
  -- rounded-down address would be 0 and contradict `start <= a`, `start != 0`
  obtain ⟨k, hk⟩ := is_power_of_two_iff.mp hpow
  rw [hk] at ha ⊢
  rcases le_or_lt k 64 with hk64 | hk64
  · have hsa : s.p_pos - np * PAGE ≤ usizeMax := by omega
    rw [align_down_pow2 hsa hk64] at ha
    have hdm := Nat.div_add_mod (s.p_pos - np * PAGE) (2 ^ k)
    have hmul2 : a = 2 ^ k * ((s.p_pos - np * PAGE) / 2 ^ k) := by omega
    rw [hmul2, Nat.mul_mod_right]
  · -- oversized alignment: `a` would be a nonzero multiple of 2^64 yet
    -- bounded by `usize::MAX`, or zero, contradicting initialization
    have hmod : a % 2 ^ 64 = 0 := by
      rw [← ha]
      unfold align_down
      exact land_mod_eq_zero (mask_mod_of_ge (Nat.le_of_lt hk64))
    have hstart : s.start ≠ 0 := by
      have := hinit
      unfold EarlyAllocator.is_initialized at this
      rw [Bool.and_eq_true, bne_iff_ne, bne_iff_ne] at this
      exact this.1
    rw [two_pow_64_eq] at hmod
    rw [usizeMax_eq, two_pow_64_eq] at hemax
    omega

/-! ### The initialization contract and preservation of the invariant -/

theorem init_spec {start size : Nat} {s0 : EarlyAllocator}
    (h : EarlyAllocator.init start size = some s0) :
    start + size ≤ usizeMax ∧ start < start + size ∧
    s0 = ⟨start, start + size, start, start + size, 0⟩ := by
  unfold EarlyAllocator.init checked_add at h
  by_cases hadd : start + size ≤ usizeMax
  · by_cases hlt : start < start + size
    · simp [hadd, hlt] at h
      exact ⟨hadd, hlt, h.symm⟩
    · simp [hadd, hlt] at h
  · simp [hadd] at h

theorem init_inv {start size : Nat} {s0 : EarlyAllocator}
    (h : EarlyAllocator.init start size = some s0) : AllocInv s0 := by
  obtain ⟨hadd, hlt, rfl⟩ := init_spec h
  exact ⟨Nat.le_refl _, Nat.le_of_lt hlt, Nat.le_refl _, hadd, Nat.zero_le _⟩


theorem step_inv {PAGE : Nat} {s s' : EarlyAllocator} {op : Op}
    (hInv : AllocInv s) (h : step PAGE s op = some s') : AllocInv s' := by
  obtain ⟨hsb, hbp, hpe, hemax, hcmax⟩ := hInv
  cases op with
  | opAlloc size align =>
    simp only [step] at h
    cases halloc : s.alloc size align with
    | none => rw [halloc] at h; simp at h
    | some r =>
      rw [halloc] at h
      cases r with
      | error e =>
        simp at h
        subst h
        exact ⟨hsb, hbp, hpe, hemax, hcmax⟩
      | ok p =>
        obtain ⟨a, s2⟩ := p
        simp at h
        subst h
        obtain ⟨hi, hsz, hpw, hba, hmod, hle, hs2⟩ :=
          alloc_ok_spec ⟨hsb, hbp, hpe, hemax, hcmax⟩ halloc
        subst hs2
        have hmlt : (s.count + 1) % (usizeMax + 1) ≤ usizeMax :=
          Nat.lt_succ_iff.mp (Nat.mod_lt _ (Nat.succ_pos usizeMax))
        exact ⟨show s.start ≤ a + size by omega, hle, hpe, hemax, hmlt⟩
  | opDealloc pos size align =>
    simp only [step] at h
    simp at h
    subst h
    simp only [EarlyAllocator.dealloc]
    split
    · exact ⟨hsb, hbp, hpe, hemax, hcmax⟩
    · split
      · exact ⟨hsb, hbp, hpe, hemax, Nat.zero_le _⟩
      · exact ⟨hsb, hbp, hpe, hemax,
          Nat.lt_succ_iff.mp (Nat.mod_lt _ (Nat.succ_pos usizeMax))⟩
  | opAllocPages np ap =>
    simp only [step] at h
    cases hap : EarlyAllocator.alloc_pages PAGE s np ap with
    | error e =>
      rw [hap] at h
      simp at h
      subst h
      exact ⟨hsb, hbp, hpe, hemax, hcmax⟩
    | ok p =>
      obtain ⟨a, s2⟩ := p
      rw [hap] at h
      simp at h
      subst h
      obtain ⟨hi, hnp, hr, hpw, hmod, hba, hsa, hszle, hale, hs2⟩ :=
        alloc_pages_ok_spec ⟨hsb, hbp, hpe, hemax, hcmax⟩ hap
      subst hs2
      exact ⟨hsb, hba, show a ≤ s.«end» by omega, hemax, hcmax⟩
  | opDeallocPages pos np =>
    simp only [step, EarlyAllocator.dealloc_pages] at h
    simp at h
    subst h
    exact ⟨hsb, hbp, hpe, hemax, hcmax⟩

theorem run_inv {PAGE : Nat} {ops : List Op} {s s' : EarlyAllocator}
    (hInv : AllocInv s) (h : run PAGE s ops = some s') : AllocInv s' := by
  induction ops generalizing s with
  | nil =>
    unfold run at h
    simp at h
    subst h
    exact hInv
  | cons op rest ih =>
    unfold run at h
    cases hstep : step PAGE s op with
    | none => rw [hstep] at h; simp at h
    | some s1 =>
      rw [hstep] at h
      exact ih (step_inv hInv hstep) h

theorem reachable_inv {PAGE : Nat} {s : EarlyAllocator}
    (h : Reachable PAGE s) : AllocInv s := by
  obtain ⟨start, size, s0, ops, hinit, hrun⟩ := h
  exact run_inv (init_inv hinit) hrun

/-- Across any single completed operation the byte cursor never moves down,
the page cursor never moves up, and the region bounds are untouched. -/
theorem step_mono {PAGE : Nat} {s s' : EarlyAllocator} {op : Op}
    (hInv : AllocInv s) (h : step PAGE s op = some s') :
    s.b_pos ≤ s'.b_pos ∧ s'.p_pos ≤ s.p_pos ∧
    s'.start = s.start ∧ s'.«end» = s.«end» := by
  obtain ⟨hsb, hbp, hpe, hemax, hcmax⟩ := hInv
  cases op with
  | opAlloc size align =>
    simp only [step] at h
    cases halloc : s.alloc size align with
    | none => rw [halloc] at h; simp at h
    | some r =>
      rw [halloc] at h
      cases r with
      | error e =>
        simp at h
        subst h
        exact ⟨Nat.le_refl _, Nat.le_refl _, rfl, rfl⟩
      | ok p =>
        obtain ⟨a, s2⟩ := p
        simp at h
        subst h
        obtain ⟨hi, hsz, hpw, hba, hmod, hle, hs2⟩ :=
          alloc_ok_spec ⟨hsb, hbp, hpe, hemax, hcmax⟩ halloc
        subst hs2
        exact ⟨show s.b_pos ≤ a + size by omega, Nat.le_refl _, rfl, rfl⟩
  | opDealloc pos size align =>
    simp only [step] at h
    simp at h
    subst h
    simp only [EarlyAllocator.dealloc]
    split
    · exact ⟨Nat.le_refl _, Nat.le_refl _, rfl, rfl⟩
    · split
      · exact ⟨Nat.le_refl _, Nat.le_refl _, rfl, rfl⟩
      · exact ⟨Nat.le_refl _, Nat.le_refl _, rfl, rfl⟩
  | opAllocPages np ap =>
    simp only [step] at h
    cases hap : EarlyAllocator.alloc_pages PAGE s np ap with
    | error e =>
      rw [hap] at h
      simp at h
      subst h
      exact ⟨Nat.le_refl _, Nat.le_refl _, rfl, rfl⟩
    | ok p =>
      obtain ⟨a, s2⟩ := p
      rw [hap] at h
      simp at h
      subst h
      obtain ⟨hi, hnp, hr, hpw, hmod, hba, hsa, hszle, hale, hs2⟩ :=
        alloc_pages_ok_spec ⟨hsb, hbp, hpe, hemax, hcmax⟩ hap
      subst hs2
      exact ⟨Nat.le_refl _, show a ≤ s.p_pos by omega, rfl, rfl⟩
  | opDeallocPages pos np =>
    simp only [step, EarlyAllocator.dealloc_pages] at h
    simp at h
    subst h
    exact ⟨Nat.le_refl _, Nat.le_refl _, rfl, rfl⟩

/-! ### Error-path helpers -/

theorem checked_shl_one {ap : Nat} (h : ap % 2 ^ 32 < 64) :
    checked_shl 1 (as_u32 ap) = some (2 ^ (ap % 2 ^ 32)) := by
  unfold checked_shl as_u32
  rw [if_pos (show ap % 2 ^ 32 < usizeBits by simpa [usizeBits] using h)]
  rw [Nat.shiftLeft_eq, Nat.one_mul, usizeMax_add_one,
    Nat.mod_eq_of_lt (Nat.pow_lt_pow_right (by norm_num) h)]

/-- With valid arguments, an initialized allocator's `alloc` never reports
`InvalidParam` (its only other outcomes are success, `NoMemory`, or the
null-pointer panic). -/
theorem alloc_ne_invalid {s : EarlyAllocator} {sz al : Nat}
    (hi : s.is_initialized = true) (hsz : sz ≠ 0)
    (hal : is_power_of_two al = true) :
    s.alloc sz al ≠ some (Except.error AllocError.InvalidParam) := by
  unfold EarlyAllocator.alloc
  rw [hi]
  simp only [Bool.true_eq_false, if_false, hsz, if_neg hsz, hal]
  by_cases h1 : align_up s.b_pos al + sz ≤ usizeMax
  · simp only [checked_add, if_pos h1]
    by_cases h2 : align_up s.b_pos al + sz ≤ s.p_pos
    · by_cases h3 : align_up s.b_pos al = 0 <;> simp [h2, h3]
    · simp [h2]
  · simp [checked_add, h1]

/-- With valid arguments, an initialized allocator's `alloc_pages` never
reports `InvalidParam`. -/
theorem alloc_pages_ne_invalid {PAGE np ap : Nat} {s : EarlyAllocator}
    (hi : s.is_initialized = true) (hnp : np ≠ 0) (hap : ap % 2 ^ 32 < 64)
    (hP : is_power_of_two PAGE = true) :
    EarlyAllocator.alloc_pages PAGE s np ap ≠ Except.error AllocError.InvalidParam := by
  have hpw : is_power_of_two (max (2 ^ (ap % 2 ^ 32)) PAGE) = true :=
    is_power_of_two_max (is_power_of_two_iff.mpr ⟨_, rfl⟩) hP
  unfold EarlyAllocator.alloc_pages
  rw [hi]
  simp only [-Nat.reducePow, Bool.true_eq_false, if_false, if_neg hnp,
    checked_shl_one hap, hpw]
  by_cases h1 : np * PAGE ≤ usizeMax
  · simp only [-Nat.reducePow, checked_mul, if_pos h1]
    by_cases h2 : np * PAGE ≤ s.p_pos
    · simp only [-Nat.reducePow, checked_sub, if_pos h2]
      by_cases h3 : s.b_pos ≤ align_down (s.p_pos - np * PAGE) (max (2 ^ (ap % 2 ^ 32)) PAGE) ∧
          s.start ≤ align_down (s.p_pos - np * PAGE) (max (2 ^ (ap % 2 ^ 32)) PAGE) <;>
        simp [-Nat.reducePow, h3]
    · simp [-Nat.reducePow, checked_sub, h2]
  · simp [-Nat.reducePow, checked_mul, h1]

/-- The full effect of `dealloc` on an initialized allocator. -/
theorem dealloc_state {s : EarlyAllocator} (pos sz al : Nat)
    (hi : s.is_initialized = true) :
    s.dealloc pos sz al =
      { s with count :=
          if s.count = 0 then 0 else (s.count + usizeMax) % (usizeMax + 1) } := by
  unfold EarlyAllocator.dealloc
  rw [hi]
  simp only [Bool.true_eq_false, if_false]
  split <;> simp [*]

/-! ### The claims -/

/-- C1: for every sequence of alloc, alloc_pages, dealloc and dealloc_pages
calls performed after a successful `init(start, size)`, the allocator state
satisfies `start <= b_pos <= p_pos <= end` before and after each completed
operation (i.e. at every reachable state). -/
theorem claim_C1_cursor_chain (PAGE : Nat) (s : EarlyAllocator)
    (h : Reachable PAGE s) :
    s.start ≤ s.b_pos ∧ s.b_pos ≤ s.p_pos ∧ s.p_pos ≤ s.«end» := by
  obtain ⟨h1, h2, h3, _, _⟩ := reachable_inv h
  exact ⟨h1, h2, h3⟩

theorem claim_C1_cursor_chain_witness :
    (⟨0x2000, 0x6000, 0x2000, 0x6000, 0⟩ : EarlyAllocator).start ≤
      (⟨0x2000, 0x6000, 0x2000, 0x6000, 0⟩ : EarlyAllocator).b_pos ∧
    (⟨0x2000, 0x6000, 0x2000, 0x6000, 0⟩ : EarlyAllocator).b_pos ≤
      (⟨0x2000, 0x6000, 0x2000, 0x6000, 0⟩ : EarlyAllocator).p_pos ∧
    (⟨0x2000, 0x6000, 0x2000, 0x6000, 0⟩ : EarlyAllocator).p_pos ≤
      (⟨0x2000, 0x6000, 0x2000, 0x6000, 0⟩ : EarlyAllocator).«end» :=
  claim_C1_cursor_chain 0x1000 ⟨0x2000, 0x6000, 0x2000, 0x6000, 0⟩
    ⟨0x2000, 0x4000, ⟨0x2000, 0x6000, 0x2000, 0x6000, 0⟩, [], by decide, rfl⟩

/-- C2 counterexample: after `init(0x2000, 0x4000)` and one page
allocation, the state is reachable and initialized, yet
`used_bytes + available_bytes = 0x3000 ≠ 0x4000 = total_bytes`: the claimed
equality fails as soon as the page arena is nonempty, because
`available_bytes` stops at `p_pos`, not at `end`. -/
theorem claim_C2_counterexample :
    Reachable 0x1000 ⟨0x2000, 0x6000, 0x2000, 0x5000, 0⟩ ∧
    EarlyAllocator.is_initialized ⟨0x2000, 0x6000, 0x2000, 0x5000, 0⟩ = true ∧
    EarlyAllocator.used_bytes ⟨0x2000, 0x6000, 0x2000, 0x5000, 0⟩ +
      EarlyAllocator.available_bytes ⟨0x2000, 0x6000, 0x2000, 0x5000, 0⟩ ≠
      EarlyAllocator.total_bytes ⟨0x2000, 0x6000, 0x2000, 0x5000, 0⟩ :=
  ⟨⟨0x2000, 0x4000, ⟨0x2000, 0x6000, 0x2000, 0x6000, 0⟩,
    [Op.opAllocPages 1 0], by decide, by decide⟩, by decide, by decide⟩

/-- C2 (amended): for every reachable initialized state, with no concurrent
mutation and a positive page size,
`used_bytes + available_bytes <= total_bytes` and
`used_pages + available_pages <= total_pages`. -/
theorem claim_C2_stats_bounds (PAGE : Nat) (s : EarlyAllocator)
    (h : Reachable PAGE s) (hinit : s.is_initialized = true) (hP : 0 < PAGE) :
    s.used_bytes + s.available_bytes ≤ s.total_bytes ∧
    EarlyAllocator.used_pages PAGE s + EarlyAllocator.available_pages PAGE s ≤
      EarlyAllocator.total_pages PAGE s := by
  obtain ⟨h1, h2, h3, h4, h5⟩ := reachable_inv h
  constructor
  · unfold EarlyAllocator.used_bytes EarlyAllocator.available_bytes
      EarlyAllocator.total_bytes
    rw [hinit]
    simp only [Bool.true_eq_false, if_false]
    omega
  · unfold EarlyAllocator.used_pages EarlyAllocator.available_pages
      EarlyAllocator.total_pages EarlyAllocator.total_bytes
      EarlyAllocator.available_bytes
    rw [hinit]
    simp only [Bool.true_eq_false, if_false]
    have hstep1 : align_down (s.p_pos - s.b_pos) PAGE / PAGE ≤
        (s.p_pos - s.b_pos) / PAGE :=
      Nat.div_le_div_right (align_down_le _ _)
    have hstep2 : (s.«end» - s.p_pos) / PAGE + (s.p_pos - s.b_pos) / PAGE ≤
        (s.«end» - s.start) / PAGE := by
      rw [Nat.le_div_iff_mul_le hP, Nat.add_mul]
      have m1 := Nat.div_mul_le_self (s.«end» - s.p_pos) PAGE
      have m2 := Nat.div_mul_le_self (s.p_pos - s.b_pos) PAGE
      omega
    omega

theorem claim_C2_stats_bounds_witness :
    EarlyAllocator.used_bytes ⟨0x2000, 0x6000, 0x2000, 0x5000, 0⟩ +
      EarlyAllocator.available_bytes ⟨0x2000, 0x6000, 0x2000, 0x5000, 0⟩ ≤
      EarlyAllocator.total_bytes ⟨0x2000, 0x6000, 0x2000, 0x5000, 0⟩ ∧
    EarlyAllocator.used_pages 0x1000 ⟨0x2000, 0x6000, 0x2000, 0x5000, 0⟩ +
      EarlyAllocator.available_pages 0x1000 ⟨0x2000, 0x6000, 0x2000, 0x5000, 0⟩ ≤
      EarlyAllocator.total_pages 0x1000 ⟨0x2000, 0x6000, 0x2000, 0x5000, 0⟩ :=
  claim_C2_stats_bounds 0x1000 ⟨0x2000, 0x6000, 0x2000, 0x5000, 0⟩
    ⟨0x2000, 0x4000, ⟨0x2000, 0x6000, 0x2000, 0x6000, 0⟩,
      [Op.opAllocPages 1 0], by decide, by decide⟩
    (by decide) (by decide)

/-- C3: the specification scenario with PAGE_SIZE = 0x1000:
`init(0x2000, 0x4000)`, then `alloc(16, 8)` returns 0x2000 with
`used_bytes = 16`, then `alloc_pages(1, 0)` returns 0x5000, then
`alloc(0x3000, 8)` fails with NoMemory. -/
theorem claim_C3_scenario :
    EarlyAllocator.init 0x2000 0x4000 =
      some ⟨0x2000, 0x6000, 0x2000, 0x6000, 0⟩ ∧
    EarlyAllocator.alloc ⟨0x2000, 0x6000, 0x2000, 0x6000, 0⟩ 16 8 =
      some (Except.ok (0x2000, ⟨0x2000, 0x6000, 0x2010, 0x6000, 1⟩)) ∧
    EarlyAllocator.used_bytes ⟨0x2000, 0x6000, 0x2010, 0x6000, 1⟩ = 16 ∧
    EarlyAllocator.alloc_pages 0x1000 ⟨0x2000, 0x6000, 0x2010, 0x6000, 1⟩ 1 0 =
      Except.ok (0x5000, ⟨0x2000, 0x6000, 0x2010, 0x5000, 1⟩) ∧
    EarlyAllocator.alloc ⟨0x2000, 0x6000, 0x2010, 0x5000, 1⟩ 0x3000 8 =
      some (Except.error AllocError.NoMemory) := by
  decide

/-- C4: every successful `alloc(size, align)` on a valid initialized state
returns an address `a` with `a % align = 0`, `a >= start`, and
`a + size <= p_pos` at the moment of success. -/
theorem claim_C4_alloc_postconditions (s s' : EarlyAllocator)
    (size align a : Nat) (hInv : AllocInv s)
    (h : s.alloc size align = some (Except.ok (a, s'))) :
    a % align = 0 ∧ s.start ≤ a ∧ a + size ≤ s'.p_pos := by
  obtain ⟨h1, h2, h3, h4, h5⟩ := hInv
  obtain ⟨hi, hsz, hpw, hba, hmod, hle, hs2⟩ :=
    alloc_ok_spec ⟨h1, h2, h3, h4, h5⟩ h
  subst hs2
  exact ⟨hmod, by omega, hle⟩

theorem claim_C4_alloc_postconditions_witness :
    (0x2000 : Nat) % 8 = 0 ∧
    (⟨0x2000, 0x6000, 0x2000, 0x6000, 0⟩ : EarlyAllocator).start ≤ 0x2000 ∧
    0x2000 + 16 ≤ (⟨0x2000, 0x6000, 0x2010, 0x6000, 1⟩ : EarlyAllocator).p_pos :=
  claim_C4_alloc_postconditions ⟨0x2000, 0x6000, 0x2000, 0x6000, 0⟩
    ⟨0x2000, 0x6000, 0x2010, 0x6000, 1⟩ 16 8 0x2000 (by decide) (by decide)

/-- C5 counterexample: `init(0, 0x1000)` satisfies the claimed
preconditions (`0 + 0x1000` does not overflow and `0 < 0x1000`), yet the
instance is NOT initialized afterwards — `is_initialized` demands
`start != 0` — and a perfectly valid `alloc(16, 8)` then fails with
`InvalidParam` on account of the uninitialized state. -/
theorem claim_C5_counterexample :
    EarlyAllocator.init 0 0x1000 = some ⟨0, 0x1000, 0, 0x1000, 0⟩ ∧
    EarlyAllocator.is_initialized ⟨0, 0x1000, 0, 0x1000, 0⟩ = false ∧
    EarlyAllocator.alloc ⟨0, 0x1000, 0, 0x1000, 0⟩ 16 8 =
      some (Except.error AllocError.InvalidParam) := by
  decide

/-- C5 (amended): for every `start ≠ 0` and `size` such that
`init(start, size)` succeeds (no overflow, `start < end`), the instance is
initialized, and subsequent `alloc` / `alloc_pages` calls with valid
arguments cannot fail with `InvalidParam`. -/
theorem claim_C5_init_marks_initialized
    (PAGE start size sz al np ap : Nat) (s0 : EarlyAllocator)
    (hstart : start ≠ 0)
    (hinit : EarlyAllocator.init start size = some s0)
    (hsz : sz ≠ 0) (hal : is_power_of_two al = true)
    (hnp : np ≠ 0) (hap : ap % 2 ^ 32 < 64)
    (hP : is_power_of_two PAGE = true) :
    s0.is_initialized = true ∧
    s0.alloc sz al ≠ some (Except.error AllocError.InvalidParam) ∧
    EarlyAllocator.alloc_pages PAGE s0 np ap ≠
      Except.error AllocError.InvalidParam := by
  obtain ⟨hadd, hlt, rfl⟩ := init_spec hinit
  have hi : EarlyAllocator.is_initialized
      ⟨start, start + size, start, start + size, 0⟩ = true := by
    unfold EarlyAllocator.is_initialized
    rw [Bool.and_eq_true, bne_iff_ne, bne_iff_ne]
    exact ⟨hstart, show start + size ≠ 0 by omega⟩
  exact ⟨hi, alloc_ne_invalid hi hsz hal, alloc_pages_ne_invalid hi hnp hap hP⟩

theorem claim_C5_init_marks_initialized_witness :
    (⟨0x2000, 0x6000, 0x2000, 0x6000, 0⟩ : EarlyAllocator).is_initialized = true ∧
    EarlyAllocator.alloc ⟨0x2000, 0x6000, 0x2000, 0x6000, 0⟩ 16 8 ≠
      some (Except.error AllocError.InvalidParam) ∧
    EarlyAllocator.alloc_pages 0x1000 ⟨0x2000, 0x6000, 0x2000, 0x6000, 0⟩ 1 0 ≠
      Except.error AllocError.InvalidParam :=
  claim_C5_init_marks_initialized 0x1000 0x2000 0x4000 16 8 1 0
    ⟨0x2000, 0x6000, 0x2000, 0x6000, 0⟩
    (by decide) (by decide) (by decide) (by decide) (by decide) (by decide)
    (by decide)

/-- C6 counterexample: on the freshly initialized region `[0x2000, 0x6000)`
with PAGE_SIZE = 0x1000, `alloc_pages(1, 2^32)` SUCCEEDS (because
`align_pow2 as u32` truncates `2^32` to 0) and returns `0x5000`, but
`0x5000 % max(2^(2^32), PAGE_SIZE) = 0x5000 ≠ 0`: the claimed alignment
`a % max(2^p, PAGE_SIZE) == 0` is violated for `p = 2^32`. -/
theorem claim_C6_counterexample :
    AllocInv ⟨0x2000, 0x6000, 0x2000, 0x6000, 0⟩ ∧
    EarlyAllocator.is_initialized ⟨0x2000, 0x6000, 0x2000, 0x6000, 0⟩ = true ∧
    EarlyAllocator.alloc_pages 0x1000 ⟨0x2000, 0x6000, 0x2000, 0x6000, 0⟩
      1 (2 ^ 32) =
      Except.ok (0x5000, ⟨0x2000, 0x6000, 0x2000, 0x5000, 0⟩) ∧
    (0x5000 : Nat) % max (2 ^ 2 ^ 32) 0x1000 ≠ 0 := by
  refine ⟨by decide, by decide, by decide, ?_⟩
  have hmax : max ((2 : Nat) ^ 2 ^ 32) 0x1000 = 2 ^ 2 ^ 32 :=
    Nat.max_eq_left (Nat.le_of_lt (Nat.lt_of_lt_of_le
      (by norm_num : (0x1000 : Nat) < 2 ^ 64)
      (Nat.pow_le_pow_right (by norm_num) (by norm_num))))
  have hmod : (0x5000 : Nat) % 2 ^ 2 ^ 32 = 0x5000 :=
    Nat.mod_eq_of_lt (Nat.lt_of_lt_of_le
      (by norm_num : (0x5000 : Nat) < 2 ^ 64)
      (Nat.pow_le_pow_right (by norm_num) (by norm_num)))
  intro hc
  rw [hmax, hmod] at hc
  exact absurd hc (by norm_num)

/-- C6 (amended): every successful `alloc_pages(n, p)` on a valid
initialized state returns an `a` with `a % max(2^(p % 2^32), PAGE_SIZE) = 0`
(the alignment exponent is truncated to `u32` before shifting), and `a`
lies within the managed region: `a >= start` and
`a + n * PAGE_SIZE <= end`. -/
theorem claim_C6_alloc_pages_alignment (PAGE np ap a : Nat)
    (s s' : EarlyAllocator) (hInv : AllocInv s)
    (h : EarlyAllocator.alloc_pages PAGE s np ap = Except.ok (a, s')) :
    a % max (2 ^ (ap % 2 ^ 32)) PAGE = 0 ∧
    s.start ≤ a ∧ a + np * PAGE ≤ s.«end» := by
  obtain ⟨h1, h2, h3, h4, h5⟩ := hInv
  obtain ⟨hi, hnp, hr, hpw, hmod, hba, hsa, hszle, hale, hs2⟩ :=
    alloc_pages_ok_spec ⟨h1, h2, h3, h4, h5⟩ h
  exact ⟨hmod, hsa, by omega⟩

theorem claim_C6_alloc_pages_alignment_witness :
    (0x5000 : Nat) % max (2 ^ ((0 : Nat) % 2 ^ 32)) 0x1000 = 0 ∧
    (⟨0x2000, 0x6000, 0x2010, 0x6000, 1⟩ : EarlyAllocator).start ≤ 0x5000 ∧
    0x5000 + 1 * 0x1000 ≤
      (⟨0x2000, 0x6000, 0x2010, 0x6000, 1⟩ : EarlyAllocator).«end» :=
  claim_C6_alloc_pages_alignment 0x1000 1 0 0x5000
    ⟨0x2000, 0x6000, 0x2010, 0x6000, 1⟩ ⟨0x2000, 0x6000, 0x2010, 0x5000, 1⟩
    (by decide) (by decide)

/-- C7: on every valid initialized state, `dealloc` decrements `count` by
one when it is positive and clamps it at zero when it is zero, and leaves
`start`, `end`, `b_pos` and `p_pos` unchanged — in particular `used_bytes`
is the same before and after the call. -/
theorem claim_C7_dealloc_clamps_and_frames (s : EarlyAllocator)
    (pos sz al : Nat) (hi : s.is_initialized = true)
    (hc : s.count ≤ usizeMax) :
    (s.count = 0 → (s.dealloc pos sz al).count = 0) ∧
    (s.count ≠ 0 → (s.dealloc pos sz al).count = s.count - 1) ∧
    (s.dealloc pos sz al).start = s.start ∧
    (s.dealloc pos sz al).«end» = s.«end» ∧
    (s.dealloc pos sz al).b_pos = s.b_pos ∧
    (s.dealloc pos sz al).p_pos = s.p_pos ∧
    (s.dealloc pos sz al).used_bytes = s.used_bytes := by
  rw [dealloc_state pos sz al hi]
  refine ⟨?_, ?_, rfl, rfl, rfl, rfl, rfl⟩
  · intro hz
    simp [hz]
  · intro hz
    rw [if_neg hz]
    have he : s.count + usizeMax = (s.count - 1) + (usizeMax + 1) := by omega
    rw [he, Nat.add_mod_right, Nat.mod_eq_of_lt (by omega)]

theorem claim_C7_dealloc_clamps_and_frames_witness :
    ((⟨0x2000, 0x6000, 0x2010, 0x6000, 1⟩ : EarlyAllocator).count = 0 →
      (EarlyAllocator.dealloc ⟨0x2000, 0x6000, 0x2010, 0x6000, 1⟩
        0x2000 16 8).count = 0) ∧
    ((⟨0x2000, 0x6000, 0x2010, 0x6000, 1⟩ : EarlyAllocator).count ≠ 0 →
      (EarlyAllocator.dealloc ⟨0x2000, 0x6000, 0x2010, 0x6000, 1⟩
        0x2000 16 8).count =
        (⟨0x2000, 0x6000, 0x2010, 0x6000, 1⟩ : EarlyAllocator).count - 1) ∧
    (EarlyAllocator.dealloc ⟨0x2000, 0x6000, 0x2010, 0x6000, 1⟩
      0x2000 16 8).start =
      (⟨0x2000, 0x6000, 0x2010, 0x6000, 1⟩ : EarlyAllocator).start ∧
    (EarlyAllocator.dealloc ⟨0x2000, 0x6000, 0x2010, 0x6000, 1⟩
      0x2000 16 8).«end» =
      (⟨0x2000, 0x6000, 0x2010, 0x6000, 1⟩ : EarlyAllocator).«end» ∧
    (EarlyAllocator.dealloc ⟨0x2000, 0x6000, 0x2010, 0x6000, 1⟩
      0x2000 16 8).b_pos =
      (⟨0x2000, 0x6000, 0x2010, 0x6000, 1⟩ : EarlyAllocator).b_pos ∧
    (EarlyAllocator.dealloc ⟨0x2000, 0x6000, 0x2010, 0x6000, 1⟩
      0x2000 16 8).p_pos =
      (⟨0x2000, 0x6000, 0x2010, 0x6000, 1⟩ : EarlyAllocator).p_pos ∧
    (EarlyAllocator.dealloc ⟨0x2000, 0x6000, 0x2010, 0x6000, 1⟩
      0x2000 16 8).used_bytes =
      (⟨0x2000, 0x6000, 0x2010, 0x6000, 1⟩ : EarlyAllocator).used_bytes :=
  claim_C7_dealloc_clamps_and_frames ⟨0x2000, 0x6000, 0x2010, 0x6000, 1⟩
    0x2000 16 8 (by decide) (by decide)

/-- C8 counterexample: `align_pow2 = 2^32` makes the mathematical shift
`2^align_pow2` overflow the 64-bit address width (since `2^32 >= 64`), so
the claim demands `InvalidParam`; but the code computes
`align_pow2 as u32 = 0` by truncation and the call does not fail with
`InvalidParam` (it succeeds). -/
theorem claim_C8_counterexample :
    (64 : Nat) ≤ 2 ^ 32 ∧
    EarlyAllocator.alloc_pages 0x1000 ⟨0x2000, 0x6000, 0x2000, 0x6000, 0⟩
      1 (2 ^ 32) ≠ Except.error AllocError.InvalidParam := by
  decide

/-- C8 (amended): on an initialized state with a power-of-two PAGE_SIZE,
`alloc_pages(num_pages, align_pow2)` fails with `InvalidParam` when
`num_pages = 0`, and when the truncated shift amount `align_pow2 % 2^32`
is at least the 64-bit width; it fails with `NoMemory` when the shift is
fine but `num_pages * PAGE_SIZE` overflows `usize`. -/
theorem claim_C8_alloc_pages_errors (PAGE : Nat) (s : EarlyAllocator)
    (hi : s.is_initialized = true) (hP : is_power_of_two PAGE = true) :
    (∀ ap, EarlyAllocator.alloc_pages PAGE s 0 ap =
      Except.error AllocError.InvalidParam) ∧
    (∀ np ap, np ≠ 0 → 64 ≤ ap % 2 ^ 32 →
      EarlyAllocator.alloc_pages PAGE s np ap =
        Except.error AllocError.InvalidParam) ∧
    (∀ np ap, np ≠ 0 → ap % 2 ^ 32 < 64 → usizeMax < np * PAGE →
      EarlyAllocator.alloc_pages PAGE s np ap =
        Except.error AllocError.NoMemory) := by
  refine ⟨?_, ?_, ?_⟩
  · intro ap
    simp [EarlyAllocator.alloc_pages, hi]
  · intro np ap hnp hap
    have hr : ¬ (as_u32 ap < usizeBits) := by
      unfold as_u32 usizeBits
      omega
    simp [EarlyAllocator.alloc_pages, hi, hnp, checked_shl, hr]
  · intro np ap hnp hap hover
    have hpw : is_power_of_two (max (2 ^ (ap % 2 ^ 32)) PAGE) = true :=
      is_power_of_two_max (is_power_of_two_iff.mpr ⟨_, rfl⟩) hP
    have hmul : ¬ (np * PAGE ≤ usizeMax) := by omega
    simp [-Nat.reducePow, EarlyAllocator.alloc_pages, hi, hnp,
      checked_shl_one hap, hpw, checked_mul, hmul]

theorem claim_C8_alloc_pages_errors_witness :
    (∀ ap, EarlyAllocator.alloc_pages 0x1000
      ⟨0x2000, 0x6000, 0x2000, 0x6000, 0⟩ 0 ap =
      Except.error AllocError.InvalidParam) ∧
    (∀ np ap, np ≠ 0 → 64 ≤ ap % 2 ^ 32 →
      EarlyAllocator.alloc_pages 0x1000
        ⟨0x2000, 0x6000, 0x2000, 0x6000, 0⟩ np ap =
        Except.error AllocError.InvalidParam) ∧
    (∀ np ap, np ≠ 0 → ap % 2 ^ 32 < 64 → usizeMax < np * 0x1000 →
      EarlyAllocator.alloc_pages 0x1000
        ⟨0x2000, 0x6000, 0x2000, 0x6000, 0⟩ np ap =
        Except.error AllocError.NoMemory) :=
  claim_C8_alloc_pages_errors 0x1000 ⟨0x2000, 0x6000, 0x2000, 0x6000, 0⟩
    (by decide) (by decide)

/-- C9: starting from any reachable state, across any single completed
operation `b_pos` never decreases and `p_pos` never increases — the two
cursors only move toward each other. -/
theorem claim_C9_cursor_monotonicity (PAGE : Nat) (s s' : EarlyAllocator)
    (op : Op) (h : Reachable PAGE s) (hstep : step PAGE s op = some s') :
    s.b_pos ≤ s'.b_pos ∧ s'.p_pos ≤ s.p_pos := by
  obtain ⟨h1, h2, _, _⟩ := step_mono (reachable_inv h) hstep
  exact ⟨h1, h2⟩

theorem claim_C9_cursor_monotonicity_witness :
    (⟨0x2000, 0x6000, 0x2000, 0x6000, 0⟩ : EarlyAllocator).b_pos ≤
      (⟨0x2000, 0x6000, 0x2000, 0x5000, 0⟩ : EarlyAllocator).b_pos ∧
    (⟨0x2000, 0x6000, 0x2000, 0x5000, 0⟩ : EarlyAllocator).p_pos ≤
      (⟨0x2000, 0x6000, 0x2000, 0x6000, 0⟩ : EarlyAllocator).p_pos :=
  claim_C9_cursor_monotonicity 0x1000 ⟨0x2000, 0x6000, 0x2000, 0x6000, 0⟩
    ⟨0x2000, 0x6000, 0x2000, 0x5000, 0⟩ (Op.opAllocPages 1 0)
    ⟨0x2000, 0x4000, ⟨0x2000, 0x6000, 0x2000, 0x6000, 0⟩, [], by decide, rfl⟩
    (by decide)

/-- C10: in the freshly constructed state (before `init`), every statistics
query returns 0, and `dealloc` returns silently leaving the state — in
particular `count` — unchanged. -/
theorem claim_C10_uninitialized_queries (PAGE pos sz al : Nat) :
    EarlyAllocator.total_bytes EarlyAllocator.new = 0 ∧
    EarlyAllocator.used_bytes EarlyAllocator.new = 0 ∧
    EarlyAllocator.available_bytes EarlyAllocator.new = 0 ∧
    EarlyAllocator.total_pages PAGE EarlyAllocator.new = 0 ∧
    EarlyAllocator.used_pages PAGE EarlyAllocator.new = 0 ∧
    EarlyAllocator.available_pages PAGE EarlyAllocator.new = 0 ∧
    EarlyAllocator.dealloc EarlyAllocator.new pos sz al = EarlyAllocator.new :=
  ⟨rfl, rfl, rfl, rfl, rfl, rfl, rfl⟩
